import Mathlib

/-!
Verification of the folder-layout persistence engine of the
obsidian-folder-workspace repository (src/main.ts, `FolderLayoutPlugin`,
with the earlier `FolderWorkspacePlugin` variant supplying
`openFolderLayout`).

The layout document, the leaf walker and the two path rewriters are
embedded directly from the source; the host editor (vault storage,
window/pane system, command palette) is an external collaborator and is
modelled from the specification's collaborator interface where needed.
JavaScript string operations are modelled on the character list of the
Lean string.
-/

/-- JS `s.startsWith(pre)`, on the character list of the string. -/
def jsStartsWith (s pre : String) : Bool :=
  pre.data.isPrefixOf s.data

/-- JS `s.slice(n)`: drop the first `n` characters of `s`. -/
def jsSlice (s : String) (n : Nat) : String :=
  String.mk (s.data.drop n)

/-- JS `s.length`: the number of characters of `s`. -/
def jsLength (s : String) : Nat :=
  s.data.length

/-- Value of the `state.state.file` field of a layout leaf: absent
(JS `undefined`), `null`, or a string. -/
inductive FileRef where
  | undef
  | null
  | str (s : String)
deriving DecidableEq

/-- The part of a layout leaf the plugin reads and writes:
`leaf.state.type` and `leaf.state.state.file`
(the callbacks of `makeLayoutPathsRelative` / `makeLayoutPathsAbsolute`,
src/main.ts 702-726). -/
structure LeafState where
  stateType : String
  file : FileRef
deriving DecidableEq

/-- A node of the layout document as traversed by `walkLayoutLeaves`
(src/main.ts 728-742): either a leaf (`obj.type === 'leaf'`) or a
container carrying a `children` array. -/
inductive LayoutNode where
  | leaf (state : LeafState)
  | split (children : List LayoutNode)

mutual
/-- Boolean equality of layout nodes, used to decide equality. -/
def nodeBeq : LayoutNode → LayoutNode → Bool
  | .leaf st, .leaf st2 => st == st2
  | .split cs, .split ds => nodeListBeq cs ds
  | _, _ => false

/-- Boolean equality of layout node lists. -/
def nodeListBeq : List LayoutNode → List LayoutNode → Bool
  | [], [] => true
  | c :: cs, d :: ds => nodeBeq c d && nodeListBeq cs ds
  | _, _ => false
end

mutual
theorem nodeBeq_iff : ∀ a b : LayoutNode, nodeBeq a b = true ↔ a = b
  | .leaf st, .leaf st2 => by
      simp [nodeBeq, beq_iff_eq]
  | .leaf _, .split _ => by simp [nodeBeq]
  | .split _, .leaf _ => by simp [nodeBeq]
  | .split cs, .split ds => by
      simp only [nodeBeq, LayoutNode.split.injEq]
      exact nodeListBeq_iff cs ds

theorem nodeListBeq_iff : ∀ cs ds : List LayoutNode, nodeListBeq cs ds = true ↔ cs = ds
  | [], [] => by simp [nodeListBeq]
  | [], _ :: _ => by simp [nodeListBeq]
  | _ :: _, [] => by simp [nodeListBeq]
  | c :: cs, d :: ds => by
      simp only [nodeListBeq, Bool.and_eq_true, List.cons.injEq]
      exact and_congr (nodeBeq_iff c d) (nodeListBeq_iff cs ds)
end

instance : DecidableEq LayoutNode := fun a b => decidable_of_iff _ (nodeBeq_iff a b)

/-- The root workspace layout object (the value of
`app.workspace.getLayout()` and the shape stored in `layout.json`):
the zones `main`, `left` and `right` hold node trees (an absent zone is
skipped by the walker's truthiness check), while `left-ribbon` and
`right-ribbon` are opaque blobs that `walkLayoutLeaves` never visits.
The root object carries no `center` field, so the walker's `center`
branch never fires on it. -/
structure RootLayout where
  main : Option LayoutNode
  left : Option LayoutNode
  right : Option LayoutNode
  leftRibbon : String
  rightRibbon : String
deriving DecidableEq

mutual
/-- `walkLayoutLeaves` (src/main.ts 728-742) below the root, specialised
to a callback that rewrites leaf states in place. -/
def mapLeaves (f : LeafState → LeafState) : LayoutNode → LayoutNode
  | .leaf st => .leaf (f st)
  | .split cs => .split (mapLeavesList f cs)

/-- The walker's loop over a `children` array. -/
def mapLeavesList (f : LeafState → LeafState) : List LayoutNode → List LayoutNode
  | [] => []
  | c :: cs => mapLeaves f c :: mapLeavesList f cs
end

/-- `walkLayoutLeaves` applied to the root object: the root has no
`type` and no `children`, so the walker recurses into `main`, `left`
and `right` (there is no `center`); the ribbon fields pass through. -/
def mapRootLeaves (f : LeafState → LeafState) (r : RootLayout) : RootLayout :=
  { main := r.main.map (mapLeaves f)
    left := r.left.map (mapLeaves f)
    right := r.right.map (mapLeaves f)
    leftRibbon := r.leftRibbon
    rightRibbon := r.rightRibbon }

/-- Callback of `makeLayoutPathsRelative` (src/main.ts 702-715): on a
markdown leaf whose file is a string, strip a leading
`folderPath + "/"`; a string file outside the folder is set to `null`. -/
def relCallback (folderPath : String) (st : LeafState) : LeafState :=
  if st.stateType = "markdown" then
    match st.file with
    | .str absPath =>
        if jsStartsWith absPath (folderPath ++ "/") then
          { st with file := .str (jsSlice absPath (jsLength folderPath + 1)) }
        else
          { st with file := .null }
    | _ => st
  else st

/-- Callback of `makeLayoutPathsAbsolute` (src/main.ts 717-726): on a
markdown leaf whose file is a nonempty string, put
`folderPath + "/"` in front of it. -/
def absCallback (folderPath : String) (st : LeafState) : LeafState :=
  if st.stateType = "markdown" then
    match st.file with
    | .str relPath =>
        if jsLength relPath > 0 then
          { st with file := .str (folderPath ++ "/" ++ relPath) }
        else st
    | _ => st
  else st

/-- `makeLayoutPathsRelative` (src/main.ts 702-715). -/
def makeLayoutPathsRelative (layoutObj : RootLayout) (folderPath : String) : RootLayout :=
  mapRootLeaves (relCallback folderPath) layoutObj

/-- `makeLayoutPathsAbsolute` (src/main.ts 717-726). -/
def makeLayoutPathsAbsolute (layoutObj : RootLayout) (folderPath : String) : RootLayout :=
  mapRootLeaves (absCallback folderPath) layoutObj

mutual
/-- The leaf states of a node, in walker order. -/
def nodeLeaves : LayoutNode → List LeafState
  | .leaf st => [st]
  | .split cs => nodeLeavesList cs

/-- The leaf states of a `children` array, in walker order. -/
def nodeLeavesList : List LayoutNode → List LeafState
  | [] => []
  | c :: cs => nodeLeaves c ++ nodeLeavesList cs
end

/-- The leaf states of an optional zone. -/
def zoneLeaves : Option LayoutNode → List LeafState
  | none => []
  | some n => nodeLeaves n

/-- Every leaf state the root walker visits: the leaves of `main`,
`left` and `right`. -/
def walkedLeaves (r : RootLayout) : List LeafState :=
  zoneLeaves r.main ++ zoneLeaves r.left ++ zoneLeaves r.right

/-- A reference lies under folder `p` when it is `p ++ "/"` followed by
a nonempty remainder. -/
def liesUnder (s p : String) : Prop :=
  ∃ rest : String, rest ≠ "" ∧ s = p ++ "/" ++ rest

/-- Every markdown string reference among the given leaf states lies
under `p`. -/
def RefsUnder (leaves : List LeafState) (p : String) : Prop :=
  ∀ st ∈ leaves, st.stateType = "markdown" → ∀ s, st.file = .str s → liesUnder s p

/-- `openSavedLayout` (src/main.ts 629-643): rewrite the stored
document's references to absolute form, then splice the live window's
`left`, `right` and ribbon zones over the stored ones; the returned
value is the layout handed to `changeLayout`. -/
def openSavedLayout (saved : RootLayout) (currentLayout : RootLayout) (folderPath : String) : RootLayout :=
  let newLayout := makeLayoutPathsAbsolute saved folderPath
  { newLayout with
      left := currentLayout.left
      right := currentLayout.right
      leftRibbon := currentLayout.leftRibbon
      rightRibbon := currentLayout.rightRibbon }

/-- An open workspace leaf as `getLeavesOfType` and `leaf.view.file`
see it: its view type and the path of the displayed file, if any. -/
structure WsLeaf where
  viewType : String
  file : Option String
deriving DecidableEq

/-- `getOpenFilePaths` (src/main.ts 680-688): the file paths of the
open markdown leaves that display a file; the truthiness filter `!!p`
drops an absent path and also an empty-string path. -/
def getOpenFilePaths (openLeaves : List WsLeaf) : List String :=
  (((openLeaves.filter (fun l => l.viewType = "markdown")).map (fun l => l.file)).filterMap id).filter
    (fun p => !(p == ""))

/-- Outcome of `saveFolderLayout`: the scope-violation notice with no
write performed, or the write of the rewritten document to
`<folder>/layout.json`. A host write failure after the decision is the
storage collaborator's; the model captures whether and what the plugin
writes. -/
inductive SaveResult where
  | scopeViolation
  | wrote (path : String) (contents : RootLayout)
deriving DecidableEq

/-- `saveFolderLayout` (src/main.ts 603-627): refuse when any open
markdown file path does not start with `folder.path + "/"`, otherwise
write the relative-rewritten current layout. -/
def saveFolderLayout (openLeaves : List WsLeaf) (folderPath : String) (currentLayout : RootLayout) : SaveResult :=
  let folderRoot := folderPath ++ "/"
  let openPaths := getOpenFilePaths openLeaves
  if openPaths.any (fun p => !(jsStartsWith p folderRoot)) then
    .scopeViolation
  else
    .wrote (folderPath ++ "/layout.json") (makeLayoutPathsRelative currentLayout folderPath)

/-- A pane of the live window with its open tabs in order; panes carry
numeric identities and `active` is the most-recently-used pane.
Modelled from the spec: the window collaborator interface of the
specification (formerly panes/splits/tabs), with `openFileInPane`
adding a tab. -/
structure Workspace where
  panes : List (Nat × List String)
  active : Nat
  nextId : Nat
deriving DecidableEq

/-- Modelled from the spec: `openFileInPane(pane, path, { active })`
adds the file as a tab of that pane; an active open focuses the pane
(`leaf.openFile` focuses by default, the tab branch passes
`{ active: false }`). -/
def openFileInPane (ws : Workspace) (paneId : Nat) (file : String) (makeActive : Bool) : Workspace :=
  { panes := ws.panes.map (fun q => if q.1 = paneId then (q.1, q.2 ++ [file]) else q)
    active := if makeActive then paneId else ws.active
    nextId := ws.nextId }

/-- Insert a pane right after the pane with identity `i` (at the end
when no pane has that identity). -/
def insertAfterPane (panes : List (Nat × List String)) (i : Nat) (p : Nat × List String) : List (Nat × List String) :=
  match panes with
  | [] => [p]
  | q :: qs => if q.1 = i then q :: p :: qs else q :: insertAfterPane qs i p

/-- Modelled from the spec: `splitActiveLeaf` creates a fresh empty
pane next to the active one and returns it; focus stays on the active
pane until a file is opened actively. -/
def splitActiveLeaf (ws : Workspace) : Workspace × Nat :=
  ({ panes := insertAfterPane ws.panes ws.active (ws.nextId, [])
     active := ws.active
     nextId := ws.nextId + 1 }, ws.nextId)

/-- `getMostRecentLeaf`: the active pane, or none in a paneless
window. -/
def getMostRecentLeaf (ws : Workspace) : Option Nat :=
  if ws.panes.isEmpty then none else some ws.active

/-- A fresh window: a single empty pane, which is the most recently
used one. -/
def initialWorkspace : Workspace :=
  { panes := [(0, [])], active := 0, nextId := 1 }

/-- `closeAllMarkdownLeaves` (src/main.ts 673-678) detaches every open
markdown leaf; the modelled panes all hold markdown views, and the host
then leaves a single empty most-recently-used pane. -/
def closeAllMarkdownLeaves (_ws : Workspace) : Workspace :=
  initialWorkspace

/-- A vault entry: a file with its vault path, or a folder with its
ordered children. -/
inductive VEntry where
  | vfile (path : String)
  | vfolder (children : List VEntry)

mutual
/-- The files a child entry contributes: a file itself, a subfolder its
own files recursively. -/
def filesOfEntry : VEntry → List String
  | .vfile p => [p]
  | .vfolder cs => allFilesList cs

/-- `getAllFilesRecursively` (src/main.ts 690-700) over the children of
a folder: files in order, a subfolder contributing its own files in
place. -/
def allFilesList : List VEntry → List String
  | [] => []
  | c :: cs => filesOfEntry c ++ allFilesList cs
end

/-- The split branch of `openDefaultLayout`: for each file, split the
active pane and open the file in the new pane. -/
def splitOpenLoop : Workspace → List String → Workspace
  | ws, [] => ws
  | ws, f :: fs =>
      let s := splitActiveLeaf ws
      splitOpenLoop (openFileInPane s.1 s.2 f true) fs

/-- The tab branch of `openDefaultLayout`: open each file as an
inactive tab of the same pane. -/
def tabOpenLoop : Workspace → Nat → List String → Workspace
  | ws, _, [] => ws
  | ws, leafId, f :: fs => tabOpenLoop (openFileInPane ws leafId f false) leafId fs

/-- `openDefaultLayout` (src/main.ts 645-668; identical at 214-241 with
the threshold fixed to 5): below the threshold one vertical split per
file, otherwise all files as tabs of the most-recently-used pane. -/
def openDefaultLayout (ws : Workspace) (allFiles : List String) (threshold : Nat) : Workspace :=
  match allFiles with
  | [] => ws
  | f0 :: rest =>
      match getMostRecentLeaf ws with
      | none => ws
      | some leaf =>
          if (f0 :: rest).length < threshold then
            splitOpenLoop (openFileInPane ws leaf f0 true) rest
          else
            tabOpenLoop (openFileInPane ws leaf f0 true) leaf rest

/-- The open content of a window: each pane's files, keeping the panes
that hold at least one file. -/
def paneContents (ws : Workspace) : List (List String) :=
  (ws.panes.map Prod.snd).filter (fun l => !l.isEmpty)

/-- The stored layout file as the open path sees it: missing, present
but not parseable as a layout document, or parsed. -/
inductive StoredLayout where
  | missing
  | corrupt
  | parsed (layout : RootLayout)
deriving DecidableEq

/-- Result of the open action: fell back to the default layout (with
the resulting panes), restored a stored document via `changeLayout`, or
aborted with the could-not-open notice. -/
inductive OpenResult where
  | defaulted (ws : Workspace)
  | restored (layout : RootLayout)
  | failed
deriving DecidableEq

/-- `openFolderLayout` (src/main.ts 177-207): close every markdown
leaf; when no `layout.json` exists run the default layout; otherwise
read and parse it and hand the absolute-rewritten document to
`changeLayout`; a read or parse failure lands in the catch branch,
which shows the could-not-open notice and opens nothing. -/
def openFolderLayout (stored : StoredLayout) (folderPath : String) (folderFiles : List String) (threshold : Nat) (ws : Workspace) : OpenResult :=
  let ws1 := closeAllMarkdownLeaves ws
  match stored with
  | .missing => .defaulted (openDefaultLayout ws1 folderFiles threshold)
  | .corrupt => .failed
  | .parsed layout => .restored (makeLayoutPathsAbsolute layout folderPath)

/-- The left split of the workspace: absent, or present with its
collapsed flag (src/main.ts 769-773). -/
structure SidebarState where
  leftSplit : Option Bool
deriving DecidableEq

/-- `isLeftSidebarOpen` (src/main.ts 769-773). -/
def isLeftSidebarOpen (s : SidebarState) : Bool :=
  match s.leftSplit with
  | none => false
  | some collapsed => collapsed == false

/-- Modelled from the spec: the host command `app:toggle-left-sidebar`
flips the collapsed flag of the left split. -/
def execToggleLeftSidebar (s : SidebarState) : SidebarState :=
  { leftSplit := s.leftSplit.map (fun c => !c) }

/-- `forceShowLeftSidebar` (src/main.ts 748-754): issue the toggle
command only when the sidebar is not open. The second component counts
the toggle commands issued. -/
def forceShowLeftSidebar (s : SidebarState) : SidebarState × Nat :=
  if !(isLeftSidebarOpen s) then (execToggleLeftSidebar s, 1) else (s, 0)

/-- `forceHideLeftSidebar` (src/main.ts 756-762): issue the toggle
command only when the sidebar is currently open. -/
def forceHideLeftSidebar (s : SidebarState) : SidebarState × Nat :=
  if isLeftSidebarOpen s then (execToggleLeftSidebar s, 1) else (s, 0)

/-- The action a folder click resolves to. -/
inductive ClickAction where
  | save
  | openSaved
  | openDefault
  | passThrough
deriving DecidableEq

/-- What a folder click does: the resolved action, whether the native
click was re-triggered programmatically (src/main.ts 535-538), and
whether the default event handling was prevented. -/
structure ClickOutcome where
  action : ClickAction
  retriggeredNative : Bool
  prevented : Bool
deriving DecidableEq

/-- `handleFolderClick` (src/main.ts 528-570) as a function of its
three decision inputs: the save modifier held, the open-default
modifier held, and `layout.json` existing for the folder. When the
save or open-default modifier is held the handler first detaches its
own listener and re-dispatches the click, letting the host run its
native expand/collapse. -/
def handleFolderClick (saveClick openDefaultClick hasLayout : Bool) : ClickOutcome :=
  let retrig := saveClick || openDefaultClick
  if saveClick then ⟨.save, retrig, true⟩
  else if hasLayout then ⟨.openSaved, retrig, true⟩
  else if openDefaultClick then ⟨.openDefault, retrig, true⟩
  else ⟨.passThrough, retrig, false⟩

/-- The host's native expand/collapse of the folder row happens when
the click was programmatically re-triggered or when the handler did not
prevent the default handling. -/
def nativeToggleOccurs (o : ClickOutcome) : Bool :=
  o.retriggeredNative || !o.prevented

/-! Helper lemmas about the walker. -/

mutual
theorem mapLeaves_fix (f : LeafState → LeafState) : ∀ n : LayoutNode,
    (∀ st ∈ nodeLeaves n, f st = st) → mapLeaves f n = n
  | .leaf st, h => by
      have hst : f st = st := h st (by simp [nodeLeaves])
      simp [mapLeaves, hst]
  | .split cs, h => by
      simp only [mapLeaves, LayoutNode.split.injEq]
      exact mapLeavesList_fix f cs (by simpa [nodeLeaves] using h)

theorem mapLeavesList_fix (f : LeafState → LeafState) : ∀ cs : List LayoutNode,
    (∀ st ∈ nodeLeavesList cs, f st = st) → mapLeavesList f cs = cs
  | [], _ => rfl
  | c :: cs, h => by
      simp only [mapLeavesList, List.cons.injEq]
      refine ⟨mapLeaves_fix f c ?_, mapLeavesList_fix f cs ?_⟩
      · intro st hst
        exact h st (by simp [nodeLeavesList, List.mem_append]; exact Or.inl hst)
      · intro st hst
        exact h st (by simp [nodeLeavesList, List.mem_append]; exact Or.inr hst)
end

mutual
theorem mapLeaves_comp (f g : LeafState → LeafState) : ∀ n : LayoutNode,
    mapLeaves g (mapLeaves f n) = mapLeaves (fun st => g (f st)) n
  | .leaf st => rfl
  | .split cs => by
      simp only [mapLeaves, LayoutNode.split.injEq]
      exact mapLeavesList_comp f g cs

theorem mapLeavesList_comp (f g : LeafState → LeafState) : ∀ cs : List LayoutNode,
    mapLeavesList g (mapLeavesList f cs) = mapLeavesList (fun st => g (f st)) cs
  | [] => rfl
  | c :: cs => by
      simp only [mapLeavesList, List.cons.injEq]
      exact ⟨mapLeaves_comp f g c, mapLeavesList_comp f g cs⟩
end

theorem mapRootLeaves_comp (f g : LeafState → LeafState) (r : RootLayout) :
    mapRootLeaves g (mapRootLeaves f r) = mapRootLeaves (fun st => g (f st)) r := by
  unfold mapRootLeaves
  simp only [Option.map_map, Function.comp_def, mapLeaves_comp]

theorem mapRootLeaves_fix (f : LeafState → LeafState) (r : RootLayout)
    (h : ∀ st ∈ walkedLeaves r, f st = st) : mapRootLeaves f r = r := by
  have hmain : Option.map (mapLeaves f) r.main = r.main := by
    cases hc : r.main with
    | none => rfl
    | some n =>
        refine congrArg some (mapLeaves_fix f n ?_)
        intro st hst
        refine h st ?_
        simp only [walkedLeaves, hc, zoneLeaves, List.mem_append]
        tauto
  have hleft : Option.map (mapLeaves f) r.left = r.left := by
    cases hc : r.left with
    | none => rfl
    | some n =>
        refine congrArg some (mapLeaves_fix f n ?_)
        intro st hst
        refine h st ?_
        simp only [walkedLeaves, hc, zoneLeaves, List.mem_append]
        tauto
  have hright : Option.map (mapLeaves f) r.right = r.right := by
    cases hc : r.right with
    | none => rfl
    | some n =>
        refine congrArg some (mapLeaves_fix f n ?_)
        intro st hst
        refine h st ?_
        simp only [walkedLeaves, hc, zoneLeaves, List.mem_append]
        tauto
  unfold mapRootLeaves
  rw [hmain, hleft, hright]

/-! Helper lemmas about the embedded string operations. -/

theorem jsData_append (a b : String) : (a ++ b).data = a.data ++ b.data := rfl

theorem slash_data : ("/" : String).data = ['/'] := rfl

theorem strNe_length_pos (s : String) (h : s ≠ "") : 0 < jsLength s := by
  cases s with
  | mk d =>
      cases d with
      | nil => exact absurd rfl h
      | cons c cs => simp [jsLength]

theorem strData_ext {a b : String} (h : a.data = b.data) : a = b := by
  cases a with
  | mk d =>
      cases b with
      | mk d2 =>
          cases h
          rfl

theorem under_startsWith (p rest : String) :
    jsStartsWith (p ++ "/" ++ rest) (p ++ "/") = true := by
  unfold jsStartsWith
  rw [List.isPrefixOf_iff_prefix, jsData_append, jsData_append, jsData_append, slash_data]
  exact List.prefix_append _ _

theorem under_slice (p rest : String) :
    jsSlice (p ++ "/" ++ rest) (jsLength p + 1) = rest := by
  unfold jsSlice jsLength
  rw [jsData_append, jsData_append, slash_data]
  have h3 : p.data.length + 1 = (p.data ++ ['/']).length := by simp
  rw [h3, List.drop_left]

theorem startsWith_decomp (s p : String) (h : jsStartsWith s (p ++ "/") = true) :
    s = p ++ "/" ++ jsSlice s (jsLength p + 1) := by
  unfold jsStartsWith at h
  rw [List.isPrefixOf_iff_prefix] at h
  obtain ⟨t2, ht⟩ := h
  have hd : s.data = (p.data ++ ['/']) ++ t2 := by
    rw [← ht, jsData_append, slash_data]
  have hdrop : jsSlice s (jsLength p + 1) = String.mk t2 := by
    unfold jsSlice jsLength
    rw [hd]
    have h3 : p.data.length + 1 = (p.data ++ ['/']).length := by simp
    rw [h3, List.drop_left]
  rw [hdrop]
  refine strData_ext ?_
  rw [jsData_append, jsData_append, slash_data, hd]

/-- Decidable check that a leaf state's markdown reference, when it is a
string, starts with `p ++ "/"` and keeps a nonempty remainder. -/
def refUnderCheck (p : String) (st : LeafState) : Bool :=
  if st.stateType = "markdown" then
    match st.file with
    | .str s => jsStartsWith s (p ++ "/") && !(jsSlice s (jsLength p + 1) == "")
    | _ => true
  else true

theorem refsUnder_of_check (leaves : List LeafState) (p : String)
    (h : leaves.all (refUnderCheck p) = true) : RefsUnder leaves p := by
  intro st hst hmd s hs
  have hc := List.all_eq_true.mp h st hst
  unfold refUnderCheck at hc
  rw [if_pos hmd, hs] at hc
  rw [Bool.and_eq_true] at hc
  refine ⟨jsSlice s (jsLength p + 1), ?_, startsWith_decomp s p hc.1⟩
  have hc2 := hc.2
  simp only [Bool.not_eq_true', beq_eq_false_iff_ne, ne_eq] at hc2
  exact hc2

/-! Per-leaf behavior of the two rewriter callbacks. -/

theorem absRel_callback (p : String) (st : LeafState)
    (h : st.stateType = "markdown" → ∀ s, st.file = .str s → liesUnder s p) :
    absCallback p (relCallback p st) = st := by
  obtain ⟨ty, fl⟩ := st
  by_cases hmd : ty = "markdown"
  · subst hmd
    cases fl with
    | undef => simp [relCallback, absCallback]
    | null => simp [relCallback, absCallback]
    | str s =>
        obtain ⟨rest, hne, hs⟩ := h rfl s rfl
        subst hs
        have h1 := under_startsWith p rest
        have h2 := under_slice p rest
        have h3 : 0 < jsLength rest := strNe_length_pos rest hne
        simp [relCallback, absCallback, h1, h2, h3]
  · simp [relCallback, absCallback, hmd]

/-- No markdown leaf among the given leaf states carries a string
reference. -/
def NoStrRefs (leaves : List LeafState) : Prop :=
  ∀ st ∈ leaves, st.stateType = "markdown" → ∀ s, st.file ≠ .str s

/-- Decidable check for `NoStrRefs`. -/
def noStrCheck (st : LeafState) : Bool :=
  if st.stateType = "markdown" then
    match st.file with
    | .str _ => false
    | _ => true
  else true

theorem noStrRefs_of_check (leaves : List LeafState)
    (h : leaves.all noStrCheck = true) : NoStrRefs leaves := by
  intro st hst hmd s hs
  have hc := List.all_eq_true.mp h st hst
  unfold noStrCheck at hc
  rw [if_pos hmd, hs] at hc
  cases hc

theorem relCallback_fix (p : String) (st : LeafState)
    (h : st.stateType = "markdown" → ∀ s, st.file ≠ .str s) :
    relCallback p st = st := by
  obtain ⟨ty, fl⟩ := st
  by_cases hmd : ty = "markdown"
  · subst hmd
    cases fl with
    | undef => simp [relCallback]
    | null => simp [relCallback]
    | str s => exact absurd rfl (h rfl s)
  · simp [relCallback, hmd]

theorem absCallback_fix (p : String) (st : LeafState)
    (h : st.stateType = "markdown" → ∀ s, st.file ≠ .str s) :
    absCallback p st = st := by
  obtain ⟨ty, fl⟩ := st
  by_cases hmd : ty = "markdown"
  · subst hmd
    cases fl with
    | undef => simp [absCallback]
    | null => simp [absCallback]
    | str s => exact absurd rfl (h rfl s)
  · simp [absCallback, hmd]

/-! Claim C1: round-trip of the path rewriters. -/

/-- C1 fails as stated: the walker also rewrites the `left` and `right`
zones, so a tree whose `main` references all lie under `A` but whose
left zone holds a markdown reference outside `A` does not round-trip —
the left reference is nulled by `makeLayoutPathsRelative` and stays
null through `makeLayoutPathsAbsolute`. -/
theorem C1_roundTrip_counterexample :
    RefsUnder (zoneLeaves (RootLayout.mk (some (.leaf ⟨"markdown", .str "A/note.md"⟩))
      (some (.leaf ⟨"markdown", .str "B/x.md"⟩)) none "LR" "RR").main) "A" ∧
    makeLayoutPathsAbsolute (makeLayoutPathsRelative (RootLayout.mk
      (some (.leaf ⟨"markdown", .str "A/note.md"⟩))
      (some (.leaf ⟨"markdown", .str "B/x.md"⟩)) none "LR" "RR") "A") "A" ≠
    RootLayout.mk (some (.leaf ⟨"markdown", .str "A/note.md"⟩))
      (some (.leaf ⟨"markdown", .str "B/x.md"⟩)) none "LR" "RR" := by
  constructor
  · exact refsUnder_of_check _ "A" (by decide)
  · decide

/-- C1 (amended): for every layout tree whose markdown references in
all walked zones (`main`, `left` and `right`) lie under folder `p`,
`makeLayoutPathsAbsolute` after `makeLayoutPathsRelative` reconstructs
the tree exactly. -/
theorem C1_roundTrip (t : RootLayout) (p : String)
    (h : RefsUnder (walkedLeaves t) p) :
    makeLayoutPathsAbsolute (makeLayoutPathsRelative t p) p = t := by
  unfold makeLayoutPathsAbsolute makeLayoutPathsRelative
  rw [mapRootLeaves_comp]
  exact mapRootLeaves_fix _ t (fun st hst => absRel_callback p st (fun hmd s hs => h st hst hmd s hs))

/-- C1 witness: the round-trip at a concrete tree with markdown leaves
under `A` in the main and left zones and a non-markdown leaf. -/
theorem C1_roundTrip_witness :
    makeLayoutPathsAbsolute (makeLayoutPathsRelative (RootLayout.mk
      (some (.split [.leaf ⟨"markdown", .str "A/a.md"⟩, .leaf ⟨"graph", .undef⟩]))
      (some (.leaf ⟨"markdown", .str "A/sub/b.md"⟩)) none "L" "R") "A") "A" =
    RootLayout.mk
      (some (.split [.leaf ⟨"markdown", .str "A/a.md"⟩, .leaf ⟨"graph", .undef⟩]))
      (some (.leaf ⟨"markdown", .str "A/sub/b.md"⟩)) none "L" "R" :=
  C1_roundTrip _ "A" (refsUnder_of_check _ "A" (by decide))

/-! Claim C7: which zones the rewriters touch. -/

/-- C7 fails as stated: `walkLayoutLeaves` recurses into the `left`
zone, so `makeLayoutPathsRelative` rewrites a markdown leaf sitting
there. -/
theorem C7_rewriterZones_counterexample :
    (makeLayoutPathsRelative (RootLayout.mk none
      (some (.leaf ⟨"markdown", .str "B/x.md"⟩)) none "LR" "RR") "A").left ≠
    (RootLayout.mk none (some (.leaf ⟨"markdown", .str "B/x.md"⟩)) none "LR" "RR").left := by
  decide

/-- C7 (amended): the rewriters leave the ribbon zones exactly as in
the input (the `left` and `right` zones are walked like `main` and
their markdown leaves rewritten). -/
theorem C7_rewriterZones (t : RootLayout) (p : String) :
    (makeLayoutPathsRelative t p).leftRibbon = t.leftRibbon ∧
    (makeLayoutPathsRelative t p).rightRibbon = t.rightRibbon ∧
    (makeLayoutPathsAbsolute t p).leftRibbon = t.leftRibbon ∧
    (makeLayoutPathsAbsolute t p).rightRibbon = t.rightRibbon :=
  ⟨rfl, rfl, rfl, rfl⟩

/-! Claim C8: idempotence of the rewriters. -/

/-- C8 fails as stated: a second `makeLayoutPathsRelative` nulls the
reference the first one made relative, and a second
`makeLayoutPathsAbsolute` puts the folder path in front a second
time. -/
theorem C8_rewriterIdempotence_counterexample :
    makeLayoutPathsRelative (makeLayoutPathsRelative (RootLayout.mk
      (some (.leaf ⟨"markdown", .str "A/x.md"⟩)) none none "LR" "RR") "A") "A" ≠
    makeLayoutPathsRelative (RootLayout.mk
      (some (.leaf ⟨"markdown", .str "A/x.md"⟩)) none none "LR" "RR") "A" ∧
    makeLayoutPathsAbsolute (makeLayoutPathsAbsolute (RootLayout.mk
      (some (.leaf ⟨"markdown", .str "x.md"⟩)) none none "LR" "RR") "A") "A" ≠
    makeLayoutPathsAbsolute (RootLayout.mk
      (some (.leaf ⟨"markdown", .str "x.md"⟩)) none none "LR" "RR") "A" := by
  constructor
  · decide
  · decide

/-- C8 (amended): when no markdown leaf of the walked zones carries a
string reference, each rewriter fixes the tree, so a second application
of either rewriter changes nothing. This is a sufficient condition
only, not a characterisation. -/
theorem C8_rewriterIdempotence (t : RootLayout) (p : String)
    (h : NoStrRefs (walkedLeaves t)) :
    makeLayoutPathsRelative t p = t ∧
    makeLayoutPathsAbsolute t p = t ∧
    makeLayoutPathsRelative (makeLayoutPathsRelative t p) p = makeLayoutPathsRelative t p ∧
    makeLayoutPathsAbsolute (makeLayoutPathsAbsolute t p) p = makeLayoutPathsAbsolute t p := by
  have hrel : makeLayoutPathsRelative t p = t :=
    mapRootLeaves_fix _ t (fun st hst => relCallback_fix p st (fun hmd s => h st hst hmd s))
  have habs : makeLayoutPathsAbsolute t p = t :=
    mapRootLeaves_fix _ t (fun st hst => absCallback_fix p st (fun hmd s => h st hst hmd s))
  refine ⟨hrel, habs, ?_, ?_⟩
  · rw [hrel]
    exact hrel
  · rw [habs]
    exact habs

/-- C8 witness: fixing and idempotence of both rewriters at a concrete
tree whose markdown leaf has a null reference. -/
theorem C8_rewriterIdempotence_witness :
    makeLayoutPathsRelative (RootLayout.mk
      (some (.leaf ⟨"markdown", .null⟩)) none
      (some (.leaf ⟨"search", .undef⟩)) "L" "R") "A" =
    RootLayout.mk (some (.leaf ⟨"markdown", .null⟩)) none
      (some (.leaf ⟨"search", .undef⟩)) "L" "R" ∧
    makeLayoutPathsAbsolute (RootLayout.mk
      (some (.leaf ⟨"markdown", .null⟩)) none
      (some (.leaf ⟨"search", .undef⟩)) "L" "R") "A" =
    RootLayout.mk (some (.leaf ⟨"markdown", .null⟩)) none
      (some (.leaf ⟨"search", .undef⟩)) "L" "R" ∧
    makeLayoutPathsRelative (makeLayoutPathsRelative (RootLayout.mk
      (some (.leaf ⟨"markdown", .null⟩)) none
      (some (.leaf ⟨"search", .undef⟩)) "L" "R") "A") "A" =
    makeLayoutPathsRelative (RootLayout.mk
      (some (.leaf ⟨"markdown", .null⟩)) none
      (some (.leaf ⟨"search", .undef⟩)) "L" "R") "A" ∧
    makeLayoutPathsAbsolute (makeLayoutPathsAbsolute (RootLayout.mk
      (some (.leaf ⟨"markdown", .null⟩)) none
      (some (.leaf ⟨"search", .undef⟩)) "L" "R") "A") "A" =
    makeLayoutPathsAbsolute (RootLayout.mk
      (some (.leaf ⟨"markdown", .null⟩)) none
      (some (.leaf ⟨"search", .undef⟩)) "L" "R") "A" :=
  C8_rewriterIdempotence _ "A" (noStrRefs_of_check _ (by decide))

/-! Claim C2: scope enforcement of the save action. -/

/-- C2: when some open markdown pane shows a file whose path does not
start with `folderPath ++ "/"`, `saveFolderLayout` stops at the
scope-violation notice and performs no write. -/
theorem C2_scopeEnforcement (openLeaves : List WsLeaf) (folderPath : String)
    (currentLayout : RootLayout) (l : WsLeaf) (hl : l ∈ openLeaves)
    (hmd : l.viewType = "markdown") (q : String) (hq : l.file = some q)
    (hqne : q ≠ "")
    (hout : jsStartsWith q (folderPath ++ "/") = false) :
    saveFolderLayout openLeaves folderPath currentLayout = .scopeViolation := by
  have hmem : q ∈ getOpenFilePaths openLeaves := by
    unfold getOpenFilePaths
    rw [List.mem_filter]
    refine ⟨?_, by simp [hqne]⟩
    rw [List.mem_filterMap]
    refine ⟨some q, ?_, rfl⟩
    rw [List.mem_map]
    refine ⟨l, ?_, hq⟩
    rw [List.mem_filter]
    exact ⟨hl, by simp [hmd]⟩
  have hany : (getOpenFilePaths openLeaves).any
      (fun q2 => !(jsStartsWith q2 (folderPath ++ "/"))) = true := by
    rw [List.any_eq_true]
    exact ⟨q, hmem, by rw [hout]; rfl⟩
  unfold saveFolderLayout
  rw [if_pos hany]

/-- C2 witness: a single open markdown pane outside folder `A`. -/
theorem C2_scopeEnforcement_witness :
    saveFolderLayout [⟨"markdown", some "B/x.md"⟩] "A"
      (RootLayout.mk none none none "L" "R") = .scopeViolation :=
  C2_scopeEnforcement _ "A" _ ⟨"markdown", some "B/x.md"⟩ (by decide) rfl "B/x.md" rfl
    (by decide) (by decide)

/-! Claim C3: restoring splices the live window's side zones. -/

/-- C3: the layout handed to `changeLayout` takes `left`, `right` and
both ribbons from the live window, its `main` from the
absolute-rewritten stored document, and does not depend on the stored
document's own copies of the spliced zones. -/
theorem C3_spliceZones (saved currentLayout : RootLayout) (p : String) :
    (openSavedLayout saved currentLayout p).left = currentLayout.left ∧
    (openSavedLayout saved currentLayout p).right = currentLayout.right ∧
    (openSavedLayout saved currentLayout p).leftRibbon = currentLayout.leftRibbon ∧
    (openSavedLayout saved currentLayout p).rightRibbon = currentLayout.rightRibbon ∧
    (openSavedLayout saved currentLayout p).main = (makeLayoutPathsAbsolute saved p).main ∧
    ∀ lz rz lr rr, openSavedLayout (RootLayout.mk saved.main lz rz lr rr) currentLayout p =
      openSavedLayout saved currentLayout p := by
  refine ⟨rfl, rfl, rfl, rfl, rfl, ?_⟩
  intro lz rz lr rr
  rfl

/-! Claim C5: missing layout falls back to the default layout. -/

/-- C5 fails as stated: `openFolderLayout` first closes every markdown
pane, so run from a window with open markdown panes it does not produce
the arrangement of calling `openDefaultLayout` directly on that
window. -/
theorem C5_missingDefault_counterexample :
    openFolderLayout .missing "A" ["A/a.md"] 5
      (Workspace.mk [(0, ["O/one.md"]), (1, ["O/two.md"])] 0 2) ≠
    OpenResult.defaulted (openDefaultLayout
      (Workspace.mk [(0, ["O/one.md"]), (1, ["O/two.md"])] 0 2) ["A/a.md"] 5) := by
  decide

/-- C5 (amended): with no stored layout the open runs exactly the
default layout after closing all markdown panes, and from a fresh
window this coincides with calling the default layout directly. -/
theorem C5_missingDefault (folderPath : String) (folderFiles : List String)
    (threshold : Nat) (ws : Workspace) :
    openFolderLayout .missing folderPath folderFiles threshold ws =
      .defaulted (openDefaultLayout (closeAllMarkdownLeaves ws) folderFiles threshold) ∧
    (ws = initialWorkspace →
      openFolderLayout .missing folderPath folderFiles threshold ws =
        .defaulted (openDefaultLayout ws folderFiles threshold)) := by
  refine ⟨rfl, ?_⟩
  intro hws
  subst hws
  rfl

/-- C5 witness: from a fresh window, open with no stored layout equals
the direct default layout. -/
theorem C5_missingDefault_witness :
    openFolderLayout .missing "A" ["A/a.md"] 5 initialWorkspace =
      .defaulted (openDefaultLayout initialWorkspace ["A/a.md"] 5) :=
  (C5_missingDefault "A" ["A/a.md"] 5 initialWorkspace).2 rfl

/-! Claim C6: behavior of the open action on a parse error. -/

/-- C6 fails as stated: a parse failure does not fall back to the
default layout — the open lands in the catch branch with the
could-not-open notice and opens nothing. -/
theorem C6_parseErrorFallback_counterexample :
    openFolderLayout .corrupt "A" ["A/a.md"] 5 initialWorkspace = OpenResult.failed ∧
    ¬ ∃ ws2, openFolderLayout .corrupt "A" ["A/a.md"] 5 initialWorkspace =
      OpenResult.defaulted ws2 := by
  constructor
  · rfl
  · rintro ⟨ws2, hw⟩
    exact OpenResult.noConfusion hw

/-- C6 (amended): a read or parse failure aborts the open with the
could-not-open notice and opens nothing; there is no fallback to the
default layout. -/
theorem C6_parseErrorFallback (folderPath : String) (folderFiles : List String)
    (threshold : Nat) (ws : Workspace) :
    openFolderLayout .corrupt folderPath folderFiles threshold ws = OpenResult.failed :=
  rfl

/-! Claim C9: idempotent sidebar forcing. -/

/-- C9: each forcer issues the toggle command exactly when state and
intent differ, so two consecutive force-shows (or force-hides) issue at
most one toggle command; stated for a window whose left split exists,
as in the live application. -/
theorem C9_sidebarIdempotence (s : SidebarState) (c : Bool) (h : s.leftSplit = some c) :
    ((forceShowLeftSidebar s).2 = 1 ↔ isLeftSidebarOpen s = false) ∧
    ((forceHideLeftSidebar s).2 = 1 ↔ isLeftSidebarOpen s = true) ∧
    (forceShowLeftSidebar s).2 + (forceShowLeftSidebar (forceShowLeftSidebar s).1).2 ≤ 1 ∧
    (forceHideLeftSidebar s).2 + (forceHideLeftSidebar (forceHideLeftSidebar s).1).2 ≤ 1 := by
  obtain ⟨ls⟩ := s
  subst h
  cases c <;> decide

/-- C9 witness: a collapsed left split. -/
theorem C9_sidebarIdempotence_witness :
    ((forceShowLeftSidebar ⟨some true⟩).2 = 1 ↔ isLeftSidebarOpen ⟨some true⟩ = false) ∧
    ((forceHideLeftSidebar ⟨some true⟩).2 = 1 ↔ isLeftSidebarOpen ⟨some true⟩ = true) ∧
    (forceShowLeftSidebar ⟨some true⟩).2 +
      (forceShowLeftSidebar (forceShowLeftSidebar ⟨some true⟩).1).2 ≤ 1 ∧
    (forceHideLeftSidebar ⟨some true⟩).2 +
      (forceHideLeftSidebar (forceHideLeftSidebar ⟨some true⟩).1).2 ≤ 1 :=
  C9_sidebarIdempotence ⟨some true⟩ true rfl

/-! Claim C10: folder-click dispatch. -/

/-- C10 fails as stated in its native-toggle part: with a saved layout
present and the open-default modifier held (save modifier not held) the
handler re-dispatches the native click — the expand/collapse happens —
and then opens the saved layout. -/
theorem C10_dispatch_counterexample :
    (handleFolderClick false true true).action = ClickAction.openSaved ∧
    nativeToggleOccurs (handleFolderClick false true true) = true := by
  decide

/-- C10 (amended): with a layout present and the save modifier not held
the click opens the saved layout whatever the open-default modifier;
the open-default action requires that no layout exists; the native
expand/collapse happens exactly when the save or open-default modifier
is held (forced re-dispatch) or when no layout exists and no modifier
is held (default handling not prevented). -/
theorem C10_dispatch (saveClick openDefaultClick hasLayout : Bool) :
    ((hasLayout = true ∧ saveClick = false) →
      (handleFolderClick saveClick openDefaultClick hasLayout).action = ClickAction.openSaved) ∧
    ((handleFolderClick saveClick openDefaultClick hasLayout).action = ClickAction.openDefault →
      hasLayout = false) ∧
    nativeToggleOccurs (handleFolderClick saveClick openDefaultClick hasLayout) =
      (saveClick || openDefaultClick || !hasLayout) := by
  cases saveClick <;> cases openDefaultClick <;> cases hasLayout <;> decide

/-- C10 witness: a plain unmodified click with a stored layout present
opens the saved layout. -/
theorem C10_dispatch_witness :
    (handleFolderClick false false true).action = ClickAction.openSaved :=
  (C10_dispatch false false true).1 ⟨rfl, rfl⟩

/-! Claim C4: helper lemmas on the default-layout loops. -/

/-- One fresh single-file pane per file, with consecutive pane
identities. -/
def singletonPanes : Nat → List String → List (Nat × List String)
  | _, [] => []
  | k, f :: fs => (k, [f]) :: singletonPanes (k + 1) fs

theorem insertAfterPane_found (acc : List (Nat × List String)) (k : Nat)
    (ts : List String) (rest2 : List (Nat × List String)) (p : Nat × List String)
    (hacc : ∀ q ∈ acc, q.1 ≠ k) :
    insertAfterPane (acc ++ (k, ts) :: rest2) k p = acc ++ (k, ts) :: p :: rest2 := by
  induction acc with
  | nil => simp [insertAfterPane]
  | cons q qs ih =>
      have hq : q.1 ≠ k := hacc q (by simp)
      simp only [List.cons_append, insertAfterPane, if_neg hq, List.cons.injEq, true_and]
      exact ih (fun q2 h2 => hacc q2 (by simp [h2]))

theorem paneMap_skip (l : List (Nat × List String)) (i : Nat) (file : String)
    (h : ∀ q ∈ l, q.1 ≠ i) :
    l.map (fun q => if q.1 = i then (q.1, q.2 ++ [file]) else q) = l := by
  induction l with
  | nil => rfl
  | cons q qs ih =>
      have hq : q.1 ≠ i := h q (by simp)
      simp only [List.map_cons, if_neg hq, List.cons.injEq, true_and]
      exact ih (fun q2 h2 => h q2 (by simp [h2]))

theorem splitOpenLoop_spec (fs : List String) :
    ∀ (acc : List (Nat × List String)) (k : Nat) (ts : List String),
    (∀ q ∈ acc, q.1 < k) →
    splitOpenLoop (Workspace.mk (acc ++ [(k, ts)]) k (k + 1)) fs =
      Workspace.mk (acc ++ (k, ts) :: singletonPanes (k + 1) fs)
        (k + fs.length) (k + 1 + fs.length) := by
  induction fs with
  | nil =>
      intro acc k ts hacc
      simp [splitOpenLoop, singletonPanes]
  | cons f fs ih =>
      intro acc k ts hacc
      have hne : ∀ q ∈ acc, q.1 ≠ k := fun q hq => Nat.ne_of_lt (hacc q hq)
      have hins : insertAfterPane (acc ++ [(k, ts)]) k (k + 1, []) =
          acc ++ (k, ts) :: (k + 1, []) :: [] :=
        insertAfterPane_found acc k ts [] (k + 1, []) hne
      have hskip : ∀ q ∈ acc ++ [(k, ts)], q.1 ≠ k + 1 := by
        intro q hq
        rcases List.mem_append.mp hq with h1 | h1
        · exact Nat.ne_of_lt (Nat.lt_trans (hacc q h1) (Nat.lt_succ_self k))
        · have hq2 : q = (k, ts) := by simpa using h1
          subst hq2
          exact Nat.ne_of_lt (Nat.lt_succ_self k)
      have hstate :
          openFileInPane (splitActiveLeaf (Workspace.mk (acc ++ [(k, ts)]) k (k + 1))).1
            (splitActiveLeaf (Workspace.mk (acc ++ [(k, ts)]) k (k + 1))).2 f true =
          Workspace.mk ((acc ++ [(k, ts)]) ++ [(k + 1, [f])]) (k + 1) (k + 1 + 1) := by
        simp only [splitActiveLeaf, openFileInPane, hins, if_true]
        simp only [Workspace.mk.injEq]
        refine ⟨?_, trivial, trivial⟩
        have hre : acc ++ (k, ts) :: (k + 1, []) :: [] =
            (acc ++ [(k, ts)]) ++ [(k + 1, [])] := by simp
        rw [hre, List.map_append, paneMap_skip (acc ++ [(k, ts)]) (k + 1) f hskip]
        simp
      simp only [splitOpenLoop]
      rw [hstate]
      rw [ih ((acc ++ [(k, ts)])) (k + 1) [f] (by
        intro q hq
        rcases List.mem_append.mp hq with h1 | h1
        · exact Nat.lt_trans (hacc q h1) (Nat.lt_succ_self k)
        · have hq2 : q = (k, ts) := by simpa using h1
          subst hq2
          exact Nat.lt_succ_self k)]
      simp only [singletonPanes, Workspace.mk.injEq, List.length_cons]
      refine ⟨by simp, by omega, by omega⟩

theorem tabOpenLoop_spec (fs : List String) : ∀ ts : List String,
    tabOpenLoop (Workspace.mk [(0, ts)] 0 1) 0 fs = Workspace.mk [(0, ts ++ fs)] 0 1 := by
  induction fs with
  | nil => intro ts; simp [tabOpenLoop]
  | cons f fs ih =>
      intro ts
      simp only [tabOpenLoop]
      have h1 : openFileInPane (Workspace.mk [(0, ts)] 0 1) 0 f false =
          Workspace.mk [(0, ts ++ [f])] 0 1 := by
        simp [openFileInPane]
      rw [h1, ih (ts ++ [f])]
      simp

theorem openDefault_split (f0 : String) (rest : List String) (t : Nat)
    (h : (f0 :: rest).length < t) :
    openDefaultLayout initialWorkspace (f0 :: rest) t =
      Workspace.mk ((0, [f0]) :: singletonPanes 1 rest) rest.length (1 + rest.length) := by
  show (if (f0 :: rest).length < t
        then splitOpenLoop (openFileInPane initialWorkspace 0 f0 true) rest
        else tabOpenLoop (openFileInPane initialWorkspace 0 f0 true) 0 rest) = _
  rw [if_pos h]
  have hopen : openFileInPane initialWorkspace 0 f0 true = Workspace.mk [(0, [f0])] 0 1 := by
    simp [openFileInPane, initialWorkspace]
  rw [hopen]
  have hspec := splitOpenLoop_spec rest [] 0 [f0] (by simp)
  simpa using hspec

theorem openDefault_tab (f0 : String) (rest : List String) (t : Nat)
    (h : ¬ (f0 :: rest).length < t) :
    openDefaultLayout initialWorkspace (f0 :: rest) t =
      Workspace.mk [(0, f0 :: rest)] 0 1 := by
  show (if (f0 :: rest).length < t
        then splitOpenLoop (openFileInPane initialWorkspace 0 f0 true) rest
        else tabOpenLoop (openFileInPane initialWorkspace 0 f0 true) 0 rest) = _
  rw [if_neg h]
  have hopen : openFileInPane initialWorkspace 0 f0 true = Workspace.mk [(0, [f0])] 0 1 := by
    simp [openFileInPane, initialWorkspace]
  rw [hopen, tabOpenLoop_spec rest [f0]]
  rfl

theorem paneContents_singletonPanes (fs : List String) : ∀ k : Nat,
    ((singletonPanes k fs).map Prod.snd).filter (fun l => !l.isEmpty) =
      fs.map (fun f => [f]) := by
  induction fs with
  | nil => intro k; rfl
  | cons f fs ih =>
      intro k
      simp only [singletonPanes, List.map_cons, List.filter_cons]
      rw [ih (k + 1)]
      simp

/-- C4: from a fresh window, a folder with exactly `threshold - 1`
files yields one single-file pane per file, a folder with exactly
`threshold` files yields a single pane holding every file as a tab; in
both branches the files appear in enumeration order and the first file
goes to the most-recently-used pane. -/
theorem C4_thresholdBoundary (threshold : Nat) (folderChildren : List VEntry)
    (ht : 1 ≤ threshold) :
    ((allFilesList folderChildren).length = threshold - 1 →
      paneContents (openDefaultLayout initialWorkspace (allFilesList folderChildren) threshold) =
        (allFilesList folderChildren).map (fun f => [f])) ∧
    ((allFilesList folderChildren).length = threshold →
      paneContents (openDefaultLayout initialWorkspace (allFilesList folderChildren) threshold) =
        [allFilesList folderChildren]) ∧
    ((openDefaultLayout initialWorkspace (allFilesList folderChildren) threshold).panes.head?).map
        Prod.fst = some initialWorkspace.active := by
  generalize allFilesList folderChildren = files
  refine ⟨?_, ?_, ?_⟩
  · intro hlen
    cases files with
    | nil => simp [openDefaultLayout, paneContents, initialWorkspace]
    | cons f0 rest =>
        have hlt : (f0 :: rest).length < threshold := by
          rw [hlen]
          omega
        rw [openDefault_split f0 rest threshold hlt]
        simp only [paneContents, List.map_cons, List.filter_cons]
        rw [paneContents_singletonPanes rest 1]
        simp
  · intro hlen
    cases files with
    | nil =>
        rw [List.length_nil] at hlen
        omega
    | cons f0 rest =>
        have hnlt : ¬ (f0 :: rest).length < threshold := by
          rw [hlen]
          omega
        rw [openDefault_tab f0 rest threshold hnlt]
        simp [paneContents]
  · cases files with
    | nil => rfl
    | cons f0 rest =>
        by_cases hlt : (f0 :: rest).length < threshold
        · rw [openDefault_split f0 rest threshold hlt]
          rfl
        · rw [openDefault_tab f0 rest threshold hlt]
          rfl

/-- C4 witness: the boundary at the default threshold 5, with four
files (one inside a subfolder) and with five files. -/
theorem C4_thresholdBoundary_witness :
    paneContents (openDefaultLayout initialWorkspace
      (allFilesList [VEntry.vfile "P/a.md", VEntry.vfolder [VEntry.vfile "P/s/b.md"],
        VEntry.vfile "P/c.md", VEntry.vfile "P/d.md"]) 5) =
      (allFilesList [VEntry.vfile "P/a.md", VEntry.vfolder [VEntry.vfile "P/s/b.md"],
        VEntry.vfile "P/c.md", VEntry.vfile "P/d.md"]).map (fun f => [f]) ∧
    paneContents (openDefaultLayout initialWorkspace
      (allFilesList [VEntry.vfile "P/a.md", VEntry.vfile "P/b.md", VEntry.vfile "P/c.md",
        VEntry.vfile "P/d.md", VEntry.vfile "P/e.md"]) 5) =
      [allFilesList [VEntry.vfile "P/a.md", VEntry.vfile "P/b.md", VEntry.vfile "P/c.md",
        VEntry.vfile "P/d.md", VEntry.vfile "P/e.md"]] :=
  ⟨(C4_thresholdBoundary 5 [VEntry.vfile "P/a.md", VEntry.vfolder [VEntry.vfile "P/s/b.md"],
      VEntry.vfile "P/c.md", VEntry.vfile "P/d.md"] (by decide)).1 (by decide),
   (C4_thresholdBoundary 5 [VEntry.vfile "P/a.md", VEntry.vfile "P/b.md", VEntry.vfile "P/c.md",
      VEntry.vfile "P/d.md", VEntry.vfile "P/e.md"] (by decide)).2.1 (by decide)⟩
